import Mathlib

/-!
Verification of the perf.data ingestion pipeline of this repository:
the streaming tokenizer (`perf_data_tokenizer.cc` / `.h`) and the record
parser (`record_parser.cc`).  Each C++ function relevant to the claims is
shallowly embedded as an executable Lean definition; collaborators whose
sources are not part of the provided tree (the byte-buffer reader, the
typed `Reader`, the clock tracker, the sorter and the various trackers)
are modelled from the specification as explicit functions or oracle
parameters.
-/

namespace PerfImporter

/-! ### Little-endian byte decoding

Modelled from the spec: `RecordReader` (`reader.h`, not under the provided
sources) reads little-endian fixed-size integers from a byte slice;
`ReadOptional` reads a value only when enough bytes are left and otherwise
stores `nullopt`, always succeeding. -/

/-- Little-endian value of a byte list (least significant byte first). -/
def leVal : List Nat → Nat
  | [] => 0
  | b :: rest => b + 256 * leVal rest

/-- `Reader::ReadOptional<uint64_t>`: reads a `u64` when at least 8 bytes are
left, otherwise yields `none`; it never fails. -/
def readOptionalU64 (bytes : List Nat) : Option Nat :=
  if 8 ≤ bytes.length then some (leVal (bytes.take 8)) else none

/-! ### The byte buffer

Modelled from the spec: `util::TraceBlobViewReader` (`ByteBufferReader`,
spec section 4.1) is an append-only rope exposing an absolute offset space:
`SliceOff` returns the bytes of `[o, o+n)` when wholly buffered,
`PopFrontBytes`/`PopFrontUntil` advance the start offset, `PushBack`
appends a chunk. -/

structure ByteBuffer where
  startOffset : Nat
  bytes : List Nat
deriving DecidableEq, Repr

def ByteBuffer.endOffset (b : ByteBuffer) : Nat := b.startOffset + b.bytes.length

def ByteBuffer.sliceOff (b : ByteBuffer) (o n : Nat) : Option (List Nat) :=
  if b.startOffset ≤ o ∧ o + n ≤ b.endOffset then
    some ((b.bytes.drop (o - b.startOffset)).take n)
  else none

def ByteBuffer.popFrontBytes (b : ByteBuffer) (n : Nat) : ByteBuffer :=
  ⟨b.startOffset + n, b.bytes.drop n⟩

def ByteBuffer.pushBack (b : ByteBuffer) (chunk : List Nat) : ByteBuffer :=
  ⟨b.startOffset, b.bytes ++ chunk⟩

/-! ### Perf file header and feature-id extraction

From `perf_data_tokenizer.cc` (`AddIds`, `ExtractFeatureIds`,
`PerfDataTokenizer::ParseHeader`).  `PerfFile::Header` / `PerfFile::Section`
(declared in `perf_file.h`, not under the provided sources) are modelled
from the spec: sections are `(offset, size)` pairs of `u64`, the header is
`magic(8) size(u64) attr_size(u64) attrs data event_types (16 bytes each)
flags(u64) flags1[3](u64)`, 104 bytes in total, `sizeof(Section) = 16`. -/

structure FileSection where
  offset : Nat
  size : Nat
deriving DecidableEq, Repr

/-- `PerfFile::Section::end()`. -/
def FileSection.endOff (s : FileSection) : Nat := s.offset + s.size

def sizeofSection : Nat := 16

structure PerfHeader where
  magic : List Nat
  size : Nat
  attrSize : Nat
  attrs : FileSection
  data : FileSection
  eventTypes : FileSection
  flags : Nat
  flags1 : Nat × Nat × Nat
deriving DecidableEq, Repr

/-- The bytes of the literal `"PERFILE2"`. -/
def perfMagic : List Nat := [80, 69, 82, 70, 73, 76, 69, 50]

/-- `AddIds(id_offset, flags, feature_ids)`: the C++ loop runs 64 iterations,
inserting `id_offset` when the low bit of `flags` is set, then shifting
`flags` right and incrementing `id_offset`.  The first argument is the
remaining iteration count (64 at the top-level call). -/
def addIds : Nat → Nat → Nat → Finset Nat → Finset Nat
  | 0, _, _, s => s
  | n + 1, idOffset, flags, s =>
      addIds n (idOffset + 1) (flags / 2)
        (if flags % 2 = 1 then insert idOffset s else s)

/-- `ExtractFeatureIds(flags, flags1)`. -/
def extractFeatureIds (flags f1 f2 f3 : Nat) : Finset Nat :=
  addIds 64 192 f3 (addIds 64 128 f2 (addIds 64 64 f1 (addIds 64 0 flags ∅)))

/-- The 256-bit bitmap formed by `flags` (bits 0-63) and `flags1[0..2]`
(bits 64-255), as a natural number. -/
def featureBitmap (flags f1 f2 f3 : Nat) : Nat :=
  flags + 2 ^ 64 * (f1 + 2 ^ 64 * (f2 + 2 ^ 64 * f3))

/-- Result of the header-derived computations of
`PerfDataTokenizer::ParseHeader`. -/
structure HeaderInfo where
  featureIds : Finset Nat
  featureHeadersSection : FileSection
deriving DecidableEq

/-- The header-validation and feature-bookkeeping part of
`PerfDataTokenizer::ParseHeader` (lines 163-193): magic check, declared
header-size check, `feature_ids_ := ExtractFeatureIds(flags, flags1)` and
`feature_headers_section_ := {data.end(), |feature_ids| * sizeof(Section)}`. -/
def parseHeaderInfo (h : PerfHeader) : Except String HeaderInfo :=
  if h.magic ≠ perfMagic then .error "Invalid magic string"
  else if h.size ≠ 104 then .error "Failed to perf file header size"
  else
    let ids := extractFeatureIds h.flags h.flags1.1 h.flags1.2.1 h.flags1.2.2
    .ok ⟨ids, ⟨h.data.endOff, ids.card * sizeofSection⟩⟩

theorem mem_addIds (n : Nat) :
    ∀ (idOffset flags : Nat) (s : Finset Nat) (x : Nat),
      x ∈ addIds n idOffset flags s ↔
        x ∈ s ∨ ∃ i, i < n ∧ flags.testBit i ∧ x = idOffset + i := by
  induction n with
  | zero =>
    intro idOffset flags s x
    simp [addIds]
  | succ n ih =>
    intro idOffset flags s x
    rw [addIds, ih]
    constructor
    · rintro (hx | ⟨i, hi, hbit, hx⟩)
      · by_cases hb : flags % 2 = 1
        · simp only [hb, if_true, Finset.mem_insert] at hx
          rcases hx with hx | hx
          · exact Or.inr ⟨0, Nat.succ_pos n, by simp [Nat.testBit_zero, hb], by omega⟩
          · exact Or.inl hx
        · simp only [hb, if_false] at hx
          exact Or.inl hx
      · refine Or.inr ⟨i + 1, by omega, ?_, by omega⟩
        rwa [Nat.testBit_add_one]
    · rintro (hx | ⟨i, hi, hbit, hx⟩)
      · left
        by_cases hb : flags % 2 = 1 <;> simp [hb, hx]
      · rcases i with _ | i
        · left
          have hb : flags % 2 = 1 := by
            simpa [Nat.testBit_zero] using hbit
          simp [hb, hx]
        · refine Or.inr ⟨i, by omega, ?_, by omega⟩
          rwa [Nat.testBit_add_one] at hbit

theorem testBit_featureBitmap (flags f1 f2 f3 : Nat)
    (h0 : flags < 2 ^ 64) (h1 : f1 < 2 ^ 64) (h2 : f2 < 2 ^ 64) (x : Nat) :
    (featureBitmap flags f1 f2 f3).testBit x =
      if x < 64 then flags.testBit x
      else if x < 128 then f1.testBit (x - 64)
      else if x < 192 then f2.testBit (x - 128)
      else f3.testBit (x - 192) := by
  unfold featureBitmap
  rw [Nat.add_comm flags, Nat.testBit_mul_pow_two_add _ h0]
  by_cases hx : x < 64
  · simp [hx]
  · simp only [hx, if_false]
    rw [Nat.add_comm f1, Nat.testBit_mul_pow_two_add _ h1]
    by_cases hx1 : x - 64 < 64
    · simp only [hx1, if_true]
      have : x < 128 := by omega
      simp [this]
    · simp only [hx1, if_false]
      have hx128 : ¬ x < 128 := by omega
      simp only [hx128, if_false]
      rw [Nat.add_comm f2, Nat.testBit_mul_pow_two_add _ h2]
      by_cases hx2 : x - 64 - 64 < 64
      · have h192 : x < 192 := by omega
        rw [if_pos hx2, if_pos h192, show x - 64 - 64 = x - 128 from by omega]
      · have h192 : ¬ x < 192 := by omega
        rw [if_neg hx2, if_neg h192, show x - 64 - 64 - 64 = x - 192 from by omega]

theorem mem_extractFeatureIds (flags f1 f2 f3 x : Nat) :
    x ∈ extractFeatureIds flags f1 f2 f3 ↔
      (∃ i, i < 64 ∧ flags.testBit i ∧ x = i) ∨
      (∃ i, i < 64 ∧ f1.testBit i ∧ x = 64 + i) ∨
      (∃ i, i < 64 ∧ f2.testBit i ∧ x = 128 + i) ∨
      (∃ i, i < 64 ∧ f3.testBit i ∧ x = 192 + i) := by
  unfold extractFeatureIds
  rw [mem_addIds, mem_addIds, mem_addIds, mem_addIds]
  simp only [Finset.not_mem_empty, false_or, Nat.zero_add, or_assoc]

theorem mem_extractFeatureIds_iff_testBit (flags f1 f2 f3 : Nat)
    (h0 : flags < 2 ^ 64) (h1 : f1 < 2 ^ 64) (h2 : f2 < 2 ^ 64) (x : Nat) :
    x ∈ extractFeatureIds flags f1 f2 f3 ↔
      x < 256 ∧ (featureBitmap flags f1 f2 f3).testBit x := by
  rw [mem_extractFeatureIds, testBit_featureBitmap flags f1 f2 f3 h0 h1 h2 x]
  constructor
  · rintro (⟨i, hi, hbit, rfl⟩ | ⟨i, hi, hbit, rfl⟩ | ⟨i, hi, hbit, rfl⟩ | ⟨i, hi, hbit, rfl⟩)
    · refine ⟨by omega, ?_⟩
      simp [hi, hbit]
    · refine ⟨by omega, ?_⟩
      have hlt : ¬ (64 + i < 64) := by omega
      have hlt2 : 64 + i < 128 := by omega
      simpa [hlt, hlt2] using hbit
    · refine ⟨by omega, ?_⟩
      have hlt : ¬ (128 + i < 64) := by omega
      have hlt2 : ¬ (128 + i < 128) := by omega
      have hlt3 : 128 + i < 192 := by omega
      simpa [hlt, hlt2, hlt3] using hbit
    · refine ⟨by omega, ?_⟩
      have hlt : ¬ (192 + i < 64) := by omega
      have hlt2 : ¬ (192 + i < 128) := by omega
      have hlt3 : ¬ (192 + i < 192) := by omega
      simpa [hlt, hlt2, hlt3] using hbit
  · rintro ⟨hx, hbit⟩
    by_cases c1 : x < 64
    · simp only [c1, if_true] at hbit
      exact Or.inl ⟨x, c1, hbit, rfl⟩
    · simp only [c1, if_false] at hbit
      by_cases c2 : x < 128
      · simp only [c2, if_true] at hbit
        exact Or.inr (Or.inl ⟨x - 64, by omega, hbit, by omega⟩)
      · simp only [c2, if_false] at hbit
        by_cases c3 : x < 192
        · simp only [c3, if_true] at hbit
          exact Or.inr (Or.inr (Or.inl ⟨x - 128, by omega, hbit, by omega⟩))
        · simp only [c3, if_false] at hbit
          exact Or.inr (Or.inr (Or.inr ⟨x - 192, by omega, hbit, by omega⟩))

/-- C8: the set `feature_ids` computed by `ParseHeader` equals exactly the set
of bit positions (0..255) that are set across the 256-bit bitmap formed by
`flags` (bits 0-63) and `flags1[0..2]` (bits 64-255), and
`feature_headers_section` is the range starting at `data.end()` of size
`|feature_ids| * sizeof(Section)` (with `sizeof(Section) = 16`). -/
theorem c8_feature_bitmap (h : PerfHeader)
    (hmagic : h.magic = perfMagic) (hsize : h.size = 104)
    (h0 : h.flags < 2 ^ 64) (h1 : h.flags1.1 < 2 ^ 64) (h2 : h.flags1.2.1 < 2 ^ 64) :
    ∃ info, parseHeaderInfo h = .ok info ∧
      (∀ x, x ∈ info.featureIds ↔
        x < 256 ∧
          (featureBitmap h.flags h.flags1.1 h.flags1.2.1 h.flags1.2.2).testBit x) ∧
      info.featureHeadersSection =
        ⟨h.data.offset + h.data.size, info.featureIds.card * sizeofSection⟩ := by
  refine ⟨⟨extractFeatureIds h.flags h.flags1.1 h.flags1.2.1 h.flags1.2.2,
    ⟨h.data.endOff, (extractFeatureIds h.flags h.flags1.1 h.flags1.2.1 h.flags1.2.2).card *
      sizeofSection⟩⟩, ?_, ?_, rfl⟩
  · simp [parseHeaderInfo, hmagic, hsize]
  · intro x
    exact mem_extractFeatureIds_iff_testBit _ _ _ _ h0 h1 h2 x

/-- A concrete header exercising `c8_feature_bitmap`: flags bits 0 and 2,
flags1[0] bit 0 (feature id 64), flags1[2] bit 63 (feature id 255). -/
def headerEx : PerfHeader :=
  { magic := perfMagic, size := 104, attrSize := 128,
    attrs := ⟨104, 128⟩, data := ⟨232, 24⟩, eventTypes := ⟨0, 0⟩,
    flags := 5, flags1 := (1, 0, 9223372036854775808) }

theorem c8_feature_bitmap_witness :
    ∃ info, parseHeaderInfo headerEx = .ok info ∧
      (∀ x, x ∈ info.featureIds ↔
        x < 256 ∧
          (featureBitmap headerEx.flags headerEx.flags1.1 headerEx.flags1.2.1
            headerEx.flags1.2.2).testBit x) ∧
      info.featureHeadersSection =
        ⟨headerEx.data.offset + headerEx.data.size,
          info.featureIds.card * sizeofSection⟩ :=
  c8_feature_bitmap headerEx rfl rfl (by norm_num [headerEx]) (by norm_num [headerEx])
    (by norm_num [headerEx])

/-! ### Feature sections: sorting and dispatch order

From `PerfDataTokenizer::ParseFeatureSections` (the `std::sort` with
comparator `lhs.second.offset > rhs.second.offset`, i.e. descending section
offset) and `PerfDataTokenizer::ParseFeatures` (which repeatedly processes
`feature_sections_.back()` and then `pop_back()`s it).  `std::sort` is
modelled as an insertion sort for the equivalent non-strict comparator; the
C++ comparator is a strict weak order whose sorted sequences are exactly
those sorted by the non-strict one (ties are ordered arbitrarily by
`std::sort`, and any tie order satisfies both). -/

/-- The sort order of `ParseFeatureSections`: descending section offset. -/
def featureSectionOrder (a b : Nat × FileSection) : Prop := b.2.offset ≤ a.2.offset

instance : DecidableRel featureSectionOrder := fun a b => Nat.decLe b.2.offset a.2.offset

instance : IsTotal (Nat × FileSection) featureSectionOrder :=
  ⟨fun a b => Nat.le_total b.2.offset a.2.offset⟩

instance : IsTrans (Nat × FileSection) featureSectionOrder :=
  ⟨fun _ _ _ h h2 => Nat.le_trans h2 h⟩

/-- The `std::sort` call of `ParseFeatureSections`. -/
def sortFeatureSections (l : List (Nat × FileSection)) : List (Nat × FileSection) :=
  List.insertionSort featureSectionOrder l

/-- The pop-from-the-back loop of `ParseFeatures`: repeatedly take
`feature_sections_.back()`, dispatch it, and `pop_back()`.  The first
argument is the loop fuel (the vector length at the top-level call); `acc`
accumulates the dispatched sections in dispatch order. -/
def popBackLoop : Nat → List (Nat × FileSection) → List (Nat × FileSection) →
    List (Nat × FileSection)
  | 0, _, acc => acc
  | fuel + 1, l, acc =>
    match l.getLast? with
    | none => acc
    | some x => popBackLoop fuel l.dropLast (acc ++ [x])

/-- The order in which `ParseFeatures` dispatches the feature sections, given
the `(feature id, Section)` pairs as read (ascending feature-id order). -/
def featureDispatchOrder (l : List (Nat × FileSection)) : List (Nat × FileSection) :=
  popBackLoop l.length (sortFeatureSections l) []

theorem popBackLoop_eq_reverse (fuel : Nat) :
    ∀ (l acc : List (Nat × FileSection)), l.length ≤ fuel →
      popBackLoop fuel l acc = acc ++ l.reverse := by
  induction fuel with
  | zero =>
    intro l acc hl
    have hnil : l = [] := List.eq_nil_of_length_eq_zero (Nat.le_zero.mp hl)
    simp [popBackLoop, hnil]
  | succ n ih =>
    intro l acc hl
    match hml : l.getLast? with
    | none =>
      rw [List.getLast?_eq_none_iff] at hml
      simp [popBackLoop, hml]
    | some x =>
      have hne : l ≠ [] := by
        intro h
        rw [h] at hml
        simp at hml
      have hx : l.getLast hne = x := by
        rw [List.getLast?_eq_getLast l hne, Option.some_inj] at hml
        exact hml
      have hconcat : l.dropLast ++ [x] = l := by
        rw [← hx]
        exact List.dropLast_append_getLast hne
      rw [popBackLoop]
      simp only [hml]
      rw [ih l.dropLast (acc ++ [x]) (by simp [List.length_dropLast]; omega)]
      rw [List.append_assoc,
        show [x] ++ l.dropLast.reverse = (l.dropLast ++ [x]).reverse by simp,
        hconcat]

/-- C1 (corrected): `ParseFeatureSections` sorts the per-feature `Section`
descriptors by descending section offset, and `ParseFeatures`, popping from
the back of that sorted vector, dispatches the feature sections in
ASCENDING section-offset order (the claim said descending; consuming the
minimum remaining offset first is what lets the buffer shed a prefix after
each section). -/
theorem c1_feature_dispatch_order (l : List (Nat × FileSection)) :
    List.Sorted featureSectionOrder (sortFeatureSections l) ∧
    (sortFeatureSections l).Perm l ∧
    featureDispatchOrder l = (sortFeatureSections l).reverse ∧
    List.Sorted (fun a b : Nat × FileSection => a.2.offset ≤ b.2.offset)
      (featureDispatchOrder l) ∧
    (featureDispatchOrder l).Perm l := by
  have hsorted : List.Sorted featureSectionOrder (sortFeatureSections l) :=
    List.sorted_insertionSort featureSectionOrder l
  have hperm : (sortFeatureSections l).Perm l := List.perm_insertionSort featureSectionOrder l
  have hlen : (sortFeatureSections l).length = l.length := hperm.length_eq
  have hdisp : featureDispatchOrder l = (sortFeatureSections l).reverse := by
    unfold featureDispatchOrder
    rw [popBackLoop_eq_reverse l.length (sortFeatureSections l) [] (le_of_eq hlen)]
    simp
  refine ⟨hsorted, hperm, hdisp, ?_, ?_⟩
  · rw [hdisp]
    rw [List.Sorted, List.pairwise_reverse]
    exact hsorted
  · rw [hdisp]
    exact (List.reverse_perm _).trans hperm

/-- Concrete feature-section index with two sections at offsets 100 and 200
(in ascending feature-id order, as `ParseFeatureSections` reads them). -/
def featureSectionsEx : List (Nat × FileSection) := [(0, ⟨100, 4⟩), (1, ⟨200, 4⟩)]

/-- C1 counterexample: with two feature sections at offsets 100 and 200, the
dispatch order of `ParseFeatures` is offset 100 first and then 200 —
ascending, not descending as the claim states. -/
theorem c1_counterexample :
    (featureDispatchOrder featureSectionsEx).map (fun p => p.2.offset) = [100, 200] ∧
    ¬ List.Sorted (fun a b : Nat × FileSection => b.2.offset ≤ a.2.offset)
      (featureDispatchOrder featureSectionsEx) := by
  constructor
  · rfl
  · decide

/-! ### Perf record types

From `perf_event.h` (not under the provided sources); the record-type
constants are the standard `perf_event` ABI values used by the tokenizer
and parser sources. -/

def PERF_RECORD_MMAP : Nat := 1
def PERF_RECORD_COMM : Nat := 3
def PERF_RECORD_SAMPLE : Nat := 9
def PERF_RECORD_MMAP2 : Nat := 10
def PERF_RECORD_AUX : Nat := 11
def PERF_RECORD_AUXTRACE_INFO : Nat := 70
def PERF_RECORD_AUXTRACE : Nat := 71

/-! ### Records at tokenization time

From `record.h` (not under the provided sources, modelled from the spec):
a record is `{header {type u32, misc u16, size u16}, payload bytes,
attr : PerfEventAttr | none}`.  Of `PerfEventAttr` only the cached time
offsets are needed by the tokenizer (`perf_event_attr.h` is not under the
provided sources; modelled from spec section 4.5). -/

structure RecordHeader where
  type : Nat
  misc : Nat
  size : Nat
deriving DecidableEq, Repr

structure TokAttr where
  timeOffsetFromStart : Option Nat
  timeOffsetFromEnd : Option Nat
deriving DecidableEq, Repr

structure TokRecord where
  header : RecordHeader
  payload : List Nat
  attr : Option TokAttr
deriving DecidableEq, Repr

/-- Decoding of the 8-byte record header `{u32 type, u16 misc, u16 size}`
(little endian). -/
def decodeRecordHeader (bytes : List Nat) : RecordHeader :=
  { type := leVal (bytes.take 4)
    misc := leVal ((bytes.drop 4).take 2)
    size := leVal ((bytes.drop 6).take 2) }

/-- `ReadTime` (`perf_data_tokenizer.cc` lines 81-106).  Returns `none` when
the C++ function returns `false` (failure), and `some time` when it returns
`true` having stored `time` (itself optional).  For non-SAMPLE records the
reader skips to `size_left - time_offset_from_end` and reads an optional
`u64`; for SAMPLE records it skips `time_offset_from_start` first. -/
def readTime (r : TokRecord) : Option (Option Nat) :=
  match r.attr with
  | none => some none
  | some attr =>
    if r.header.type ≠ PERF_RECORD_SAMPLE then
      match attr.timeOffsetFromEnd with
      | none => some none
      | some off =>
        if r.payload.length < off then none
        else some (readOptionalU64 (r.payload.drop (r.payload.length - off)))
    else
      match attr.timeOffsetFromStart with
      | none => some none
      | some off =>
        if off ≤ r.payload.length then some (readOptionalU64 (r.payload.drop off))
        else none

/-! ### Clock translation and timestamp monotonicity

From `PerfDataTokenizer::ToTraceTimestamp` (lines 293-307).  The clock
tracker's `ToTraceTime` for the MONOTONIC domain is an oracle
`clock : Int → Option Int`; the sorter's `max_timestamp()` at the moment of
the call is an arbitrary oracle value `sorterMax`. -/


/-- `ToTraceTimestamp(time)`: first component is the translated trace
timestamp (`none` on translation failure), second component the updated
`latest_timestamp_`.  The absent-time branch synthesizes
`max(latest_timestamp_, sorter.max_timestamp())`, which always succeeds. -/
def toTraceTimestamp (clock : Int → Option Int) (sorterMax latest : Int)
    (time : Option Nat) : Option Int × Int :=
  match (match time with
         | some t => clock (t : Int)
         | none => some (max latest sorterMax)) with
  | some v => (some v, max latest v)
  | none => (none, latest)

theorem toTraceTimestamp_none_eq (clock : Int → Option Int) (smax latest : Int) :
    toTraceTimestamp clock smax latest none =
      (some (max latest smax), max latest (max latest smax)) := rfl

theorem toTraceTimestamp_some_eq (clock : Int → Option Int) (smax latest : Int) (t : Nat) :
    toTraceTimestamp clock smax latest (some t) =
      match clock (t : Int) with
      | some v => (some v, max latest v)
      | none => (none, latest) := rfl

/-- A run of successive `ToTraceTimestamp` calls, one per record, where each
successful translation is pushed to the sorter.  Each list entry is the
record's extracted perf time together with the sorter's `max_timestamp()`
at that moment; the result is the final `latest_timestamp_` and the list of
all pushed trace timestamps. -/
def runPushes (clock : Int → Option Int) :
    List (Option Nat × Int) → Int → List Int → Int × List Int
  | [], latest, pushed => (latest, pushed)
  | (time, smax) :: rest, latest, pushed =>
    match toTraceTimestamp clock smax latest time with
    | (some ts, latest') => runPushes clock rest latest' (pushed ++ [ts])
    | (none, latest') => runPushes clock rest latest' pushed

theorem toTraceTimestamp_latest_le (clock : Int → Option Int)
    (smax latest : Int) (time : Option Nat) :
    latest ≤ (toTraceTimestamp clock smax latest time).2 := by
  rcases time with _ | t
  · rw [toTraceTimestamp_none_eq]
    simp
  · rw [toTraceTimestamp_some_eq]
    rcases hc : clock (t : Int) with _ | v
    · simp
    · simp

theorem toTraceTimestamp_push_eq (clock : Int → Option Int)
    (smax latest : Int) (time : Option Nat) (ts latest' : Int)
    (h : toTraceTimestamp clock smax latest time = (some ts, latest')) :
    latest' = max latest ts := by
  rcases time with _ | t
  · rw [toTraceTimestamp_none_eq] at h
    rcases h with ⟨h1, h2⟩
    rfl
  · rw [toTraceTimestamp_some_eq] at h
    rcases hc : clock (t : Int) with _ | v <;> rw [hc] at h
    · simp at h
    · simp at h
      rcases h with ⟨h1, h2⟩
      rw [← h2, h1]

theorem toTraceTimestamp_ts_le (clock : Int → Option Int)
    (smax latest : Int) (time : Option Nat) (ts latest' : Int)
    (h : toTraceTimestamp clock smax latest time = (some ts, latest')) :
    ts ≤ latest' := by
  rw [toTraceTimestamp_push_eq clock smax latest time ts latest' h]
  exact le_max_right latest ts

theorem runPushes_invariant (clock : Int → Option Int)
    (inputs : List (Option Nat × Int)) :
    ∀ (latest : Int) (pushed : List Int),
      (∀ x ∈ pushed, x ≤ latest) →
      (∀ x ∈ (runPushes clock inputs latest pushed).2,
        x ≤ (runPushes clock inputs latest pushed).1) := by
  induction inputs with
  | nil =>
    intro latest pushed hinv
    simpa [runPushes] using hinv
  | cons p rest ih =>
    intro latest pushed hinv
    rcases p with ⟨time, smax⟩
    rw [runPushes]
    rcases hstep : toTraceTimestamp clock smax latest time with ⟨ots, latest'⟩
    have hle : latest ≤ latest' := by
      have := toTraceTimestamp_latest_le clock smax latest time
      rw [hstep] at this
      exact this
    rcases ots with _ | ts
    · exact ih latest' pushed (fun x hx => le_trans (hinv x hx) hle)
    · refine ih latest' (pushed ++ [ts]) ?_
      intro x hx
      rcases List.mem_append.mp hx with hx | hx
      · exact le_trans (hinv x hx) hle
      · rw [List.mem_singleton] at hx
        subst hx
        exact toTraceTimestamp_ts_le clock smax latest time x latest' hstep

/-- C5: for a record whose extracted perf time is absent the synthesized
trace timestamp is `max(latest_timestamp_, sorter.max_timestamp())` (and
that computation always succeeds); after every successful computation
`latest_timestamp_` becomes the `max` of itself and the computed value
(hence it is non-decreasing and at least the computed value); and across
any run of pushes, the final `latest_timestamp_` is greater than or equal
to every trace timestamp previously pushed to the sorter. -/
theorem c5_latest_timestamp_monotone (clock : Int → Option Int) :
    (∀ smax latest,
      (toTraceTimestamp clock smax latest none).1 = some (max latest smax)) ∧
    (∀ time smax latest, latest ≤ (toTraceTimestamp clock smax latest time).2) ∧
    (∀ time smax latest ts latest',
      toTraceTimestamp clock smax latest time = (some ts, latest') →
        latest' = max latest ts ∧ ts ≤ latest') ∧
    (∀ inputs latest pushed, (∀ x ∈ pushed, x ≤ latest) →
      ∀ x ∈ (runPushes clock inputs latest pushed).2,
        x ≤ (runPushes clock inputs latest pushed).1) := by
  refine ⟨?_, ?_, ?_, ?_⟩
  · intro smax latest
    rw [toTraceTimestamp_none_eq]
  · intro time smax latest
    exact toTraceTimestamp_latest_le clock smax latest time
  · intro time smax latest ts latest' h
    exact ⟨toTraceTimestamp_push_eq clock smax latest time ts latest' h,
      toTraceTimestamp_ts_le clock smax latest time ts latest' h⟩
  · intro inputs latest pushed hinv
    exact runPushes_invariant clock inputs latest pushed hinv

/-- Witness for `c5_latest_timestamp_monotone` at a concrete clock and a
concrete two-record run (one translated time, one absent time). -/
theorem c5_latest_timestamp_monotone_witness :
    (toTraceTimestamp (fun t => some t) 7 3 none).1 = some 7 ∧
    (∀ x ∈ (runPushes (fun t => some t) [(some 5, 0), (none, 2)] 0 []).2,
      x ≤ (runPushes (fun t => some t) [(some 5, 0), (none, 2)] 0 []).1) := by
  have h := c5_latest_timestamp_monotone (fun t => some t)
  refine ⟨?_, h.2.2.2 [(some 5, 0), (none, 2)] 0 [] (by intro x hx; simp at hx)⟩
  have := h.1 7 3
  simpa using this

/-! ### `PushRecord` (C3)

From `PerfDataTokenizer::PushRecord` (lines 309-331): read the record's
time, translate it, and — unless the record type is AUXTRACE_INFO /
AUXTRACE / AUX — push `(trace_ts, record)` to the sorter.  A `false` return
makes `ParseRecords` count `perf_record_skipped`. -/

/-- What `PushRecord` hands to the sorter: either one
`sorter->PushPerfRecord(trace_ts, record)` call or nothing. -/
inductive PushOutcome
  | push (ts : Int) (r : TokRecord)
  | nopush
deriving DecidableEq, Repr

/-- Whether a record type is one of the AUX family dropped by `PushRecord`. -/
def isAuxType (t : Nat) : Prop :=
  t = PERF_RECORD_AUXTRACE_INFO ∨ t = PERF_RECORD_AUXTRACE ∨ t = PERF_RECORD_AUX

instance (t : Nat) : Decidable (isAuxType t) := by
  unfold isAuxType
  infer_instance

/-- `PushRecord(record)`: returns the C++ boolean return value, the updated
`latest_timestamp_`, and the sorter interaction. -/
def pushRecord (clock : Int → Option Int) (sorterMax latest : Int)
    (r : TokRecord) : Bool × Int × PushOutcome :=
  match readTime r with
  | none => (false, latest, .nopush)
  | some time =>
    match toTraceTimestamp clock sorterMax latest time with
    | (none, latest') => (false, latest', .nopush)
    | (some ts, latest') =>
      if isAuxType r.header.type then (true, latest', .nopush)
      else (true, latest', .push ts r)

/-- C3: a record of type AUX / AUXTRACE / AUXTRACE_INFO whose time
extraction and clock translation succeed is not pushed to the sorter, and
`PushRecord` still returns `true` (so `ParseRecords` does not count it as
skipped); moreover no call of `PushRecord` whatsoever pushes a record of
one of those three types, so they never reach `RecordParser` (whose AUX
branch is a `PERFETTO_FATAL`). -/
theorem c3_aux_records_dropped (clock : Int → Option Int)
    (smax latest : Int) (r : TokRecord) (time : Option Nat) (ts latest' : Int)
    (haux : isAuxType r.header.type)
    (htime : readTime r = some time)
    (hclock : toTraceTimestamp clock smax latest time = (some ts, latest')) :
    pushRecord clock smax latest r = (true, latest', .nopush) ∧
    (∀ (clock2 : Int → Option Int) (smax2 latest2 : Int) (r2 : TokRecord)
        (ts2 : Int) (rr : TokRecord),
      (pushRecord clock2 smax2 latest2 r2).2.2 = .push ts2 rr →
        ¬ isAuxType rr.header.type) := by
  constructor
  · simp only [pushRecord, htime]
    rw [hclock]
    simp [haux]
  · intro clock2 smax2 latest2 r2 ts2 rr hpush
    simp only [pushRecord] at hpush
    rcases h1 : readTime r2 with _ | time2 <;> simp only [h1] at hpush
    · simp at hpush
    · rcases h2 : toTraceTimestamp clock2 smax2 latest2 time2 with ⟨ots, l2⟩
      simp only [h2] at hpush
      rcases ots with _ | ts'
      · simp at hpush
      · by_cases ha : isAuxType r2.header.type
        · simp [ha] at hpush
        · simp only [ha, if_false] at hpush
          simp at hpush
          intro habs
          rw [← hpush.2] at habs
          exact ha habs

/-- A concrete AUX record with an attr carrying a time at the end of the
payload. -/
def auxRecordEx : TokRecord :=
  { header := { type := 11, misc := 0, size := 24 }
    payload := [1, 0, 0, 0, 0, 0, 0, 0, 42, 0, 0, 0, 0, 0, 0, 0]
    attr := some { timeOffsetFromStart := some 8, timeOffsetFromEnd := some 8 } }

theorem c3_aux_records_dropped_witness :
    pushRecord (fun t => some t) 0 0 auxRecordEx = (true, 42, .nopush) ∧
    (∀ (clock2 : Int → Option Int) (smax2 latest2 : Int) (r2 : TokRecord)
        (ts2 : Int) (rr : TokRecord),
      (pushRecord clock2 smax2 latest2 r2).2.2 = .push ts2 rr →
        ¬ isAuxType rr.header.type) := by
  have h := c3_aux_records_dropped (fun t => some t) 0 0 auxRecordEx (some 42) 42 42
    (by decide) (by decide) (by decide)
  exact ⟨by rw [h.1], h.2⟩

/-! ### `ParseRecord` (C7)

From `PerfDataTokenizer::ParseRecord` (lines 259-291): slice the 8-byte
record header at the buffer start; reject `size < sizeof(header)` as
"Invalid record size"; require the remaining `size - 8` payload bytes to be
resident, else `kMoreDataNeeded`; resolve the record's attr through the
session (an oracle here, since `perf_session.h` is not under the provided
sources); pop `size` bytes. -/

inductive TokenizeRecordResult
  | moreDataNeeded
  | failure (msg : String)
  | success (r : TokRecord) (b : ByteBuffer)
deriving DecidableEq, Repr

/-- `PerfDataTokenizer::ParseRecord`.  `findAttr` is the
`PerfSession::FindAttrForRecord` oracle (an error status aborts the
tokenizer; an `ok` result may still carry a null attr). -/
def parseRecordTok (findAttr : RecordHeader → List Nat → Except String (Option TokAttr))
    (b : ByteBuffer) : TokenizeRecordResult :=
  match b.sliceOff b.startOffset 8 with
  | none => .moreDataNeeded
  | some hdrBytes =>
    let hdr := decodeRecordHeader hdrBytes
    if hdr.size < 8 then .failure "Invalid record size"
    else
      match b.sliceOff (b.startOffset + 8) (hdr.size - 8) with
      | none => .moreDataNeeded
      | some payload =>
        match findAttr hdr payload with
        | .error _ => .failure "Unable to determine perf_event_attr for record"
        | .ok attr => .success ⟨hdr, payload, attr⟩ (b.popFrontBytes hdr.size)

/-- C7: in the `ParseRecords` state, a record whose 8-byte header declares
`size < 8` is rejected with the fatal "Invalid record size" error, while a
record whose declared `size` bytes are not yet fully buffered (including
the case where even the 8 header bytes are missing) makes `ParseRecord`
return `kMoreDataNeeded` — a non-error status under which no record is
emitted and parsing can resume when more bytes arrive. -/
theorem c7_record_size_validation
    (findAttr : RecordHeader → List Nat → Except String (Option TokAttr))
    (b : ByteBuffer) :
    (b.sliceOff b.startOffset 8 = none →
      parseRecordTok findAttr b = .moreDataNeeded) ∧
    (∀ hb, b.sliceOff b.startOffset 8 = some hb →
      (decodeRecordHeader hb).size < 8 →
        parseRecordTok findAttr b = .failure "Invalid record size") ∧
    (∀ hb, b.sliceOff b.startOffset 8 = some hb →
      8 ≤ (decodeRecordHeader hb).size →
      b.sliceOff (b.startOffset + 8) ((decodeRecordHeader hb).size - 8) = none →
        parseRecordTok findAttr b = .moreDataNeeded) := by
  refine ⟨?_, ?_, ?_⟩
  · intro hnone
    unfold parseRecordTok
    rw [hnone]
  · intro hb hsome hsize
    unfold parseRecordTok
    rw [hsome]
    simp only [hsize, if_pos]
  · intro hb hsome hsize hpayload
    unfold parseRecordTok
    rw [hsome]
    have : ¬ (decodeRecordHeader hb).size < 8 := by omega
    simp only [this, if_false, hpayload]

/-- A trivial attr oracle for the C7 witness. -/
def findAttrOk : RecordHeader → List Nat → Except String (Option TokAttr) :=
  fun _ _ => .ok none

/-- Buffer holding only 4 bytes: not even the 8-byte record header is
resident (spec scenario S4). -/
def bufHeaderShort : ByteBuffer := ⟨0, [10, 0, 0, 0]⟩

/-- Buffer holding a full record header that declares `size = 4 < 8`. -/
def bufBadSize : ByteBuffer := ⟨0, [9, 0, 0, 0, 0, 0, 4, 0]⟩

/-- Buffer holding a record header declaring `size = 24` with only the 8
header bytes resident. -/
def bufTruncated : ByteBuffer := ⟨0, [9, 0, 0, 0, 0, 0, 24, 0]⟩

theorem c7_record_size_validation_witness :
    parseRecordTok findAttrOk bufHeaderShort = .moreDataNeeded ∧
    parseRecordTok findAttrOk bufBadSize = .failure "Invalid record size" ∧
    parseRecordTok findAttrOk bufTruncated = .moreDataNeeded := by
  refine ⟨(c7_record_size_validation findAttrOk bufHeaderShort).1 (by decide),
    (c7_record_size_validation findAttrOk bufBadSize).2.1
      [9, 0, 0, 0, 0, 0, 4, 0] (by decide) (by decide),
    (c7_record_size_validation findAttrOk bufTruncated).2.2
      [9, 0, 0, 0, 0, 0, 24, 0] (by decide) (by decide) (by decide)⟩

/-! ### The `Parse` dispatch loop (C9)

From `PerfDataTokenizer::Parse` (lines 125-161): append the chunk, then
loop while the last state result is `kSuccess` and the buffer is non-empty,
dispatching on `parsing_state_`; in the `kDone` state the loop body sets
the error status "Unexpected data" (terminating the loop).  The individual
state handlers are modelled elsewhere in this file; for the loop itself
they are abstracted as a step oracle, which the `kDone` case never
invokes. -/

inductive ParsingState
  | parseHeaderS
  | parseAttrsS
  | seekRecordsS
  | parseRecordsS
  | parseFeatureSectionsS
  | parseFeaturesS
  | doneS
deriving DecidableEq, Repr

structure TokState where
  pstate : ParsingState
  buffer : ByteBuffer
deriving DecidableEq, Repr

/-- Result of one state handler: `kSuccess` (loop again), `kMoreDataNeeded`
(return ok and wait for more bytes), or an error status. -/
inductive StepResult
  | success (t : TokState)
  | moreDataNeeded (t : TokState)
  | failure (msg : String) (t : TokState)

/-- The `while` loop of `Parse`, with explicit fuel (the C++ loop
terminates because each state either consumes buffer bytes or stalls; fuel
exhaustion returns ok and is irrelevant to the claims proved about this
model). -/
def parseLoop (step : ParsingState → TokState → StepResult) :
    Nat → TokState → Except String TokState
  | 0, t => .ok t
  | fuel + 1, t =>
    if t.buffer.bytes.isEmpty then .ok t
    else
      match t.pstate with
      | .doneS => .error "Unexpected data"
      | s =>
        match step s t with
        | .success t' => parseLoop step fuel t'
        | .moreDataNeeded t' => .ok t'
        | .failure msg _ => .error msg

/-- `PerfDataTokenizer::Parse(blob)`: push the chunk, then run the loop. -/
def tokParse (step : ParsingState → TokState → StepResult) (fuel : Nat)
    (t : TokState) (chunk : List Nat) : Except String TokState :=
  parseLoop step fuel ⟨t.pstate, t.buffer.pushBack chunk⟩

/-- C9: once the tokenizer is in the `kDone` state, any `Parse` call whose
chunk leaves the buffer non-empty returns the "Unexpected data" error,
while a call that leaves the buffer empty returns success. -/
theorem c9_done_rejects_trailing_data (step : ParsingState → TokState → StepResult)
    (fuel : Nat) (t : TokState) (chunk : List Nat)
    (hdone : t.pstate = .doneS) (hfuel : 0 < fuel) :
    (¬ (t.buffer.pushBack chunk).bytes.isEmpty →
      tokParse step fuel t chunk = .error "Unexpected data") ∧
    ((t.buffer.pushBack chunk).bytes.isEmpty →
      tokParse step fuel t chunk = .ok ⟨t.pstate, t.buffer.pushBack chunk⟩) := by
  rcases fuel with _ | n
  · omega
  · constructor
    · intro hne
      unfold tokParse parseLoop
      simp only [hdone]
      rw [if_neg (by simpa using hne)]
    · intro hemp
      unfold tokParse parseLoop
      rw [if_pos (by simpa using hemp)]

/-- Witness for `c9_done_rejects_trailing_data`: a Done-state tokenizer with
an empty buffer fed one extra byte errors with "Unexpected data"; fed an
empty chunk, the call succeeds.  The step oracle is arbitrary (never
invoked in the Done state). -/
theorem c9_done_rejects_trailing_data_witness :
    tokParse (fun _ t => .success t) 1 ⟨.doneS, ⟨300, []⟩⟩ [7] =
      .error "Unexpected data" ∧
    tokParse (fun _ t => .success t) 1 ⟨.doneS, ⟨300, []⟩⟩ [] =
      .ok ⟨.doneS, ⟨300, []⟩⟩ := by
  have h1 := (c9_done_rejects_trailing_data (fun _ t => .success t) 1
    ⟨.doneS, ⟨300, []⟩⟩ [7] rfl (by omega)).1 (by decide)
  have h2 := (c9_done_rejects_trailing_data (fun _ t => .success t) 1
    ⟨.doneS, ⟨300, []⟩⟩ [] rfl (by omega)).2 (by decide)
  exact ⟨h1, by simpa [ByteBuffer.pushBack] using h2⟩

/-! ### Record parser: cpu modes, mappings, callsites

From `record_parser.cc`.  `protos::pbzero::Profiling::CpuMode` (derived from
the record header's `misc` low bits, spec section 4.8) is the six-valued
enum below.  `VirtualMemoryMapping`, the mapping tracker, the process
tracker and the stack-profile tracker are repository collaborators not
under the provided sources; they are modelled from the spec as oracles
(`ParserEnv`) and an explicit effect log (`ParserState`). -/

inductive CpuMode
  | unknown
  | kernel
  | user
  | hypervisor
  | guestKernel
  | guestUser
deriving DecidableEq, Repr

/-- `IsInKernel(cpu_mode)` (`record_parser.cc` lines 74-87).  The C++
function hits `PERFETTO_FATAL("Unknown CPU mode")` for `MODE_UNKNOWN`,
modelled as `none`; otherwise it returns the boolean. -/
def IsInKernel : CpuMode → Option Bool
  | .unknown => none
  | .guestKernel => some true
  | .kernel => some true
  | .user => some false
  | .hypervisor => some false
  | .guestUser => some false

/-- A virtual memory mapping as seen by the parser: an identity and
`ToRelativePc`. -/
structure Mapping where
  id : Nat
  toRelativePc : Nat → Nat

/-- A callchain frame (`Sample::Frame{cpu_mode, ip}`). -/
structure Frame where
  cpuMode : CpuMode
  ip : Nat
deriving DecidableEq, Repr

/-- An interned callsite `(parent, frame_id, depth)`.  `root` is a callsite
whose parent is `std::nullopt`. -/
inductive Callsite
  | root (frame : Nat × Nat) (depth : Nat)
  | child (parent : Callsite) (frame : Nat × Nat) (depth : Nat)
deriving DecidableEq, Repr

/-- `StackProfileTracker::InternCallsite(parent, frame, depth)` produces the
callsite with the given optional parent. -/
def Callsite.mkNode (parent : Option Callsite) (frame : Nat × Nat) (depth : Nat) : Callsite :=
  match parent with
  | none => .root frame depth
  | some p => .child p frame depth

def Callsite.depth : Callsite → Nat
  | .root _ d => d
  | .child _ _ d => d

/-- Depths along the parent chain, from this callsite down to the root
(whose parent is `none`). -/
def Callsite.depthList : Callsite → List Nat
  | .root _ d => [d]
  | .child p _ d => d :: p.depthList

/-- Frame keys along the parent chain, from this callsite down to the
root. -/
def Callsite.frameList : Callsite → List (Nat × Nat)
  | .root f _ => [f]
  | .child p f _ => f :: p.frameList

/-- Depth/frame chains lifted to an optional callsite. -/
def optDepthList : Option Callsite → List Nat
  | none => []
  | some c => c.depthList

def optFrameList : Option Callsite → List (Nat × Nat)
  | none => []
  | some c => c.frameList

theorem optDepthList_some_mkNode (parent : Option Callsite) (f : Nat × Nat) (d : Nat) :
    optDepthList (some (Callsite.mkNode parent f d)) = d :: optDepthList parent := by
  rcases parent with _ | p <;> rfl

theorem optFrameList_some_mkNode (parent : Option Callsite) (f : Nat × Nat) (d : Nat) :
    optFrameList (some (Callsite.mkNode parent f d)) = f :: optFrameList parent := by
  rcases parent with _ | p <;> rfl

/-- The parser attr data used by the claims: `sample_period()` plus an
identity for counter bookkeeping. -/
structure PAttr where
  id : Nat
  samplePeriod : Option Nat
deriving DecidableEq, Repr

/-- Oracles for the parser's collaborators: the process tracker
(`UpdateThread`, thread-table upid lookup), the mapping tracker and the
session's id-to-attr index. -/
structure ParserEnv where
  updateThread : Nat → Nat → Nat
  upidOf : Nat → Nat
  findKernelMappingForAddress : Nat → Option Mapping
  findUserMappingForAddress : Nat → Nat → Option Mapping
  dummyMapping : Mapping
  findAttrForEventId : Nat → Option PAttr

/-- Storage side effects of the record parser: stat counters, the
`perf_sample` table, the intern log of `InternCallsite` calls and the
counter-table operations. -/
structure Stats where
  perfSamplesSkipped : Nat
  perfRecordSkipped : Nat
  perfDummyMappingUsed : Nat
deriving DecidableEq, Repr

structure PerfSampleRow where
  ts : Int
  utid : Nat
  cpu : Nat
  cpuMode : CpuMode
  callsiteId : Option Callsite
  perfSessionId : Nat
deriving DecidableEq, Repr

inductive CounterOp
  | addDelta (attrId cpu : Nat) (ts : Int) (value : Nat)
  | addCount (attrId cpu : Nat) (ts : Int) (value : Nat)
deriving DecidableEq, Repr

structure ParserState where
  stats : Stats
  rows : List PerfSampleRow
  interned : List (Option Callsite × (Nat × Nat) × Nat)
  counterOps : List CounterOp
deriving DecidableEq, Repr

def ParserState.bumpDummy (st : ParserState) : ParserState :=
  { st with stats := { st.stats with
      perfDummyMappingUsed := st.stats.perfDummyMappingUsed + 1 } }

def ParserState.bumpSamplesSkipped (st : ParserState) : ParserState :=
  { st with stats := { st.stats with
      perfSamplesSkipped := st.stats.perfSamplesSkipped + 1 } }

/-- The mapping chosen for one frame by the body of the `InternCallchain`
loop (`record_parser.cc` lines 203-215): kernel lookup for kernel cpu
modes, user lookup (with the sample thread's upid) otherwise, the dummy
mapping (flagged `true`) when the chosen lookup found nothing, and `none`
for the `PERFETTO_FATAL` on an unknown cpu mode. -/
def frameMapping (env : ParserEnv) (upid : Nat) (f : Frame) : Option (Mapping × Bool) :=
  match IsInKernel f.cpuMode with
  | none => none
  | some true =>
    match env.findKernelMappingForAddress f.ip with
    | some m => some (m, false)
    | none => some (env.dummyMapping, true)
  | some false =>
    match env.findUserMappingForAddress upid f.ip with
    | some m => some (m, false)
    | none => some (env.dummyMapping, true)

/-- Whether the loop body falls back to the dummy mapping for this frame. -/
def usesDummy (env : ParserEnv) (upid : Nat) (f : Frame) : Bool :=
  match frameMapping env upid f with
  | some (_, b) => b
  | none => false

/-- The frame key `(mapping id, mapping->ToRelativePc(ip))` interned for a
frame (meaningful when `frameMapping` succeeds). -/
def frameKey (env : ParserEnv) (upid : Nat) (f : Frame) : Nat × Nat :=
  match frameMapping env upid f with
  | some (m, _) => (m.id, m.toRelativePc f.ip)
  | none => (0, 0)

/-- State effects of one `InternCallchain` loop iteration: the optional
`perf_dummy_mapping_used` increment, then the `InternCallsite` call
appended to the intern log. -/
def internStep (st : ParserState) (parent : Option Callsite) (fid : Nat × Nat)
    (depth : Nat) (dummyUsed : Bool) : ParserState :=
  let st1 := if dummyUsed then st.bumpDummy else st
  { st1 with interned := st1.interned ++ [(parent, fid, depth)] }

/-- The `for (auto it = callchain.rbegin(); ...)` loop of `InternCallchain`
over the already-reversed frame list, carrying `parent` and `depth`.
Returns `none` on the `PERFETTO_FATAL` for an unknown cpu mode. -/
def internFrames (env : ParserEnv) (upid : Nat) :
    List Frame → Option Callsite → Nat → ParserState →
      Option (Option Callsite × ParserState)
  | [], parent, _, st => some (parent, st)
  | f :: rest, parent, depth, st =>
    match frameMapping env upid f with
    | none => none
    | some (m, dummyUsed) =>
      internFrames env upid rest
        (some (Callsite.mkNode parent (m.id, m.toRelativePc f.ip) depth))
        (depth + 1)
        (internStep st parent (m.id, m.toRelativePc f.ip) depth dummyUsed)

/-- `RecordParser::InternCallchain(upid, callchain)` (lines 190-224). -/
def internCallchain (env : ParserEnv) (st : ParserState) (upid : Nat)
    (callchain : List Frame) : Option (Option Callsite × ParserState) :=
  if callchain = [] then some (none, st)
  else internFrames env upid callchain.reverse none 0 st

theorem internStep_fields (st : ParserState) (parent : Option Callsite)
    (fid : Nat × Nat) (depth : Nat) (b : Bool) :
    (internStep st parent fid depth b).interned = st.interned ++ [(parent, fid, depth)] ∧
    (internStep st parent fid depth b).rows = st.rows ∧
    (internStep st parent fid depth b).counterOps = st.counterOps ∧
    (internStep st parent fid depth b).stats.perfDummyMappingUsed =
      st.stats.perfDummyMappingUsed + (if b then 1 else 0) ∧
    (internStep st parent fid depth b).stats.perfSamplesSkipped =
      st.stats.perfSamplesSkipped ∧
    (internStep st parent fid depth b).stats.perfRecordSkipped =
      st.stats.perfRecordSkipped := by
  rcases b with _ | _ <;>
    simp [internStep, ParserState.bumpDummy]

theorem frameMapping_isSome (env : ParserEnv) (upid : Nat) (f : Frame)
    (h : f.cpuMode ≠ CpuMode.unknown) :
    ∃ mb, frameMapping env upid f = some mb := by
  unfold frameMapping
  rcases hm : f.cpuMode <;> try (exact absurd hm h)
  all_goals
    simp only [IsInKernel]
  · rcases env.findKernelMappingForAddress f.ip with _ | m <;> exact ⟨_, rfl⟩
  · rcases env.findUserMappingForAddress upid f.ip with _ | m <;> exact ⟨_, rfl⟩
  · rcases env.findUserMappingForAddress upid f.ip with _ | m <;> exact ⟨_, rfl⟩
  · rcases env.findKernelMappingForAddress f.ip with _ | m <;> exact ⟨_, rfl⟩
  · rcases env.findUserMappingForAddress upid f.ip with _ | m <;> exact ⟨_, rfl⟩

theorem range_map_add_reverse (n d : Nat) :
    ((List.range (n + 1)).map (fun i => i + d)).reverse =
      ((List.range n).map (fun i => i + (d + 1))).reverse ++ [d] := by
  rw [List.range_succ_eq_map, List.map_cons, List.map_map, List.reverse_cons]
  have h1 : (0 : Nat) + d = d := by omega
  have h2 : ((fun i => i + d) ∘ Nat.succ) = fun i : Nat => i + (d + 1) := by
    funext i
    show Nat.succ i + d = i + (d + 1)
    omega
  rw [h1, h2]

/-- Main induction for `InternCallchain`: when every frame has a known cpu
mode, the loop succeeds and builds exactly one callsite per frame, with
consecutive depths starting at `depth`, frames keyed in processing order,
one intern-log entry per frame, and a dummy-mapping stat increment per
frame whose lookup missed; rows and counter operations are untouched. -/
theorem internFrames_spec (env : ParserEnv) (upid : Nat) (l : List Frame) :
    ∀ (parent : Option Callsite) (depth : Nat) (st : ParserState),
      (∀ f ∈ l, f.cpuMode ≠ CpuMode.unknown) →
      ∃ c st', internFrames env upid l parent depth st = some (c, st') ∧
        optDepthList c =
          ((List.range l.length).map (fun i => i + depth)).reverse ++ optDepthList parent ∧
        optFrameList c =
          (l.map (frameKey env upid)).reverse ++ optFrameList parent ∧
        st'.interned.length = st.interned.length + l.length ∧
        st'.rows = st.rows ∧
        st'.counterOps = st.counterOps ∧
        st'.stats.perfDummyMappingUsed =
          st.stats.perfDummyMappingUsed + l.countP (fun f => usesDummy env upid f) ∧
        st'.stats.perfSamplesSkipped = st.stats.perfSamplesSkipped ∧
        st'.stats.perfRecordSkipped = st.stats.perfRecordSkipped ∧
        (l = [] → c = parent) := by
  induction l with
  | nil =>
    intro parent depth st _
    refine ⟨parent, st, rfl, by simp [optDepthList], by simp [optFrameList], by simp, rfl,
      rfl, by simp, rfl, rfl, fun _ => rfl⟩
  | cons f rest ih =>
    intro parent depth st hknown
    obtain ⟨⟨m, b⟩, hmap⟩ := frameMapping_isSome env upid f (hknown f (by simp))
    have hkey : frameKey env upid f = (m.id, m.toRelativePc f.ip) := by
      unfold frameKey
      rw [hmap]
    have hdummy : usesDummy env upid f = b := by
      unfold usesDummy
      rw [hmap]
    obtain ⟨c, st', hrec, hdep, hfr, hlen, hrows, hops, hdum, hss, hrs, _⟩ :=
      ih (some (Callsite.mkNode parent (m.id, m.toRelativePc f.ip) depth)) (depth + 1)
        (internStep st parent (m.id, m.toRelativePc f.ip) depth b)
        (fun g hg => hknown g (by simp [hg]))
    obtain ⟨hsI, hsR, hsC, hsD, hsS, hsK⟩ :=
      internStep_fields st parent (m.id, m.toRelativePc f.ip) depth b
    refine ⟨c, st', ?_, ?_, ?_, ?_, ?_, ?_, ?_, ?_, ?_, ?_⟩
    · simp only [internFrames, hmap]
      exact hrec
    · rw [hdep, optDepthList_some_mkNode]
      show _ = ((List.range (rest.length + 1)).map (fun i => i + depth)).reverse ++ _
      rw [range_map_add_reverse rest.length depth]
      simp
    · rw [hfr, optFrameList_some_mkNode, ← hkey]
      simp
    · rw [hlen, hsI]
      simp
      omega
    · rw [hrows, hsR]
    · rw [hops, hsC]
    · rw [hdum, hsD, List.countP_cons, hdummy]
      rcases b with _ | _
      · simp
      · simp
        omega
    · rw [hss, hsS]
    · rw [hrs, hsK]
    · intro h
      simp at h

/-! ### Samples, `InternSample`, `UpdateCounters` (C4, C6, C10)

`Sample` (from `sample.h`, not under the provided sources; modelled from
spec section 3) is the decoded view of a SAMPLE record.  Records reaching
the parser got their attr resolved at tokenization time, so `attr` is kept
non-optional here. -/

structure RGEntry where
  eventId : Option Nat
  value : Nat
deriving DecidableEq, Repr

structure PidTid where
  pid : Nat
  tid : Nat
deriving DecidableEq, Repr

structure Sample where
  time : Option Nat
  pidTid : Option PidTid
  cpu : Option Nat
  ip : Option Nat
  cpuMode : CpuMode
  callchain : List Frame
  period : Option Nat
  readGroups : List RGEntry
  traceTs : Int
  attr : PAttr
  perfSessionId : Nat
deriving DecidableEq, Repr

/-- Status returned by the parser routines (`base::Status`). -/
inductive RStatus
  | ok
  | err (msg : String)
deriving DecidableEq, Repr

/-- The callchain handed to `InternCallchain` by `InternSample`: when the
sample has an `ip` but an empty callchain, a single frame
`{cpu_mode, *ip}` is pushed first (`record_parser.cc` lines 175-177). -/
def sampleChainForIntern (s : Sample) : List Frame :=
  if s.callchain = [] ∧ s.ip.isSome then [⟨s.cpuMode, s.ip.getD 0⟩]
  else s.callchain

/-- The loop body of `UpdateCountersInReadGroups` (lines 312-328) over the
read groups. -/
def updateGroupsLoop (env : ParserEnv) (cpu : Nat) (ts : Int) :
    List RGEntry → ParserState → RStatus × ParserState
  | [], st => (.ok, st)
  | e :: rest, st =>
    match env.findAttrForEventId (e.eventId.getD 0) with
    | none => (.err "No perf_event_attr for id", st)
    | some a =>
      updateGroupsLoop env cpu ts rest
        { st with counterOps := st.counterOps ++ [.addCount a.id cpu ts e.value] }

/-- `RecordParser::UpdateCountersInReadGroups` (lines 312-328). -/
def updateCountersInReadGroups (env : ParserEnv) (st : ParserState) (s : Sample) :
    RStatus × ParserState :=
  match s.cpu with
  | none => (.err "No cpu for sample", st)
  | some cpu => updateGroupsLoop env cpu s.traceTs s.readGroups st

/-- `RecordParser::UpdateCounters` (lines 293-310). -/
def updateCounters (env : ParserEnv) (st : ParserState) (s : Sample) :
    RStatus × ParserState :=
  if s.readGroups ≠ [] then updateCountersInReadGroups env st s
  else if s.period = none ∧ s.attr.samplePeriod = none then
    (.err "No period for sample", st)
  else
    match s.cpu with
    | none => (.err "No cpu for sample", st)
    | some cpu =>
      (.ok, { st with counterOps := st.counterOps ++
        [.addDelta s.attr.id cpu s.traceTs
          (match s.period with
           | some p => p
           | none => s.attr.samplePeriod.getD 0)] })

/-- `utid` of the sample's thread:
`process_tracker->UpdateThread(sample.pid_tid->tid, sample.pid_tid->pid)`. -/
def sampleUtid (env : ParserEnv) (s : Sample) : Nat :=
  env.updateThread (s.pidTid.getD ⟨0, 0⟩).tid (s.pidTid.getD ⟨0, 0⟩).pid

/-- The `upid` of the sample's thread, via the thread table. -/
def sampleUpid (env : ParserEnv) (s : Sample) : Nat :=
  env.upidOf (sampleUtid env s)

/-- The `perf_sample` row inserted by `InternSample` (lines 181-185). -/
def rowOf (env : ParserEnv) (s : Sample) (cid : Option Callsite) : PerfSampleRow :=
  { ts := s.traceTs
    utid := sampleUtid env s
    cpu := s.cpu.getD 0
    cpuMode := s.cpuMode
    callsiteId := cid
    perfSessionId := s.perfSessionId }

/-- `RecordParser::InternSample` (lines 148-188): the mandatory-field gate
(time, pid/tid, cpu), thread/upid resolution, callchain synthesis and
interning, the `perf_sample` row insertion, then `UpdateCounters`.  `none`
models the `PERFETTO_FATAL` reachable through `InternCallchain`. -/
def internSample (env : ParserEnv) (st : ParserState) (s : Sample) :
    Option (RStatus × ParserState) :=
  if s.time = none then
    some (.err "Can not parse samples with no PERF_SAMPLE_TIME field", st)
  else if s.pidTid = none then
    some (.err "Can not parse samples with no PERF_SAMPLE_TID field", st)
  else if s.cpu = none then
    some (.err "Can not parse samples with no PERF_SAMPLE_CPU field", st)
  else
    match internCallchain env st (sampleUpid env s) (sampleChainForIntern s) with
    | none => none
    | some (callsiteId, st1) =>
      some (updateCounters env
        { st1 with rows := st1.rows ++ [rowOf env s callsiteId] } s)

/-- `RecordParser::ParseSample` (lines 137-146) after `Sample::Parse`
succeeded (decoding itself is performed by `sample.cc`, which is not under
the provided sources): fall back to the attr's `sample_period()` when the
sample carries no period, then intern. -/
def parseSampleDecoded (env : ParserEnv) (st : ParserState) (s : Sample) :
    Option (RStatus × ParserState) :=
  internSample env st
    (if s.period = none then { s with period := s.attr.samplePeriod } else s)

/-- `RecordParser::ParsePerfRecord` (lines 99-105) on a SAMPLE record whose
decode succeeded: on a non-ok status from the parse chain, increment
`perf_samples_skipped`. -/
def parsePerfRecordOnSample (env : ParserEnv) (st : ParserState) (s : Sample) :
    Option ParserState :=
  match parseSampleDecoded env st s with
  | none => none
  | some (.ok, st') => some st'
  | some (.err _, st') => some st'.bumpSamplesSkipped

theorem internCallchain_success (env : ParserEnv) (st : ParserState) (upid : Nat)
    (chain : List Frame) (hknown : ∀ f ∈ chain, f.cpuMode ≠ CpuMode.unknown) :
    ∃ c st', internCallchain env st upid chain = some (c, st') ∧
      st'.rows = st.rows ∧
      st'.counterOps = st.counterOps ∧
      st'.stats.perfSamplesSkipped = st.stats.perfSamplesSkipped ∧
      st'.stats.perfRecordSkipped = st.stats.perfRecordSkipped ∧
      st'.stats.perfDummyMappingUsed =
        st.stats.perfDummyMappingUsed + chain.countP (fun f => usesDummy env upid f) := by
  unfold internCallchain
  by_cases hc : chain = []
  · refine ⟨none, st, by rw [if_pos hc], rfl, rfl, rfl, rfl, by simp [hc]⟩
  · obtain ⟨c, st', hrec, _, _, _, hrows, hops, hdum, hss, hrs, _⟩ :=
      internFrames_spec env upid chain.reverse none 0 st
        (fun f hf => hknown f (List.mem_reverse.mp hf))
    refine ⟨c, st', by rw [if_neg hc]; exact hrec, hrows, hops, hss, hrs, ?_⟩
    rw [hdum, List.countP_reverse]

theorem Callsite.depthList_head (c : Callsite) :
    ∃ rest, c.depthList = c.depth :: rest := by
  rcases c with ⟨f, d⟩ | ⟨p, f, d⟩
  · exact ⟨[], rfl⟩
  · exact ⟨p.depthList, rfl⟩

theorem internCallchain_nonempty_spec (env : ParserEnv) (st : ParserState)
    (upid : Nat) (chain : List Frame) (hne : chain ≠ [])
    (hknown : ∀ f ∈ chain, f.cpuMode ≠ CpuMode.unknown) :
    ∃ cs st', internCallchain env st upid chain = some (some cs, st') ∧
      cs.depth = chain.length - 1 ∧
      cs.depthList = (List.range chain.length).reverse ∧
      cs.frameList = chain.map (frameKey env upid) ∧
      st'.interned.length = st.interned.length + chain.length := by
  obtain ⟨c, st', hrec, hdep, hfr, hlen, _, _, _, _, _, _⟩ :=
    internFrames_spec env upid chain.reverse none 0 st
      (fun f hf => hknown f (List.mem_reverse.mp hf))
  have hchainlen : chain.reverse.length = chain.length := List.length_reverse chain
  have hdep' : optDepthList c = (List.range chain.length).reverse := by
    rw [hdep, hchainlen]
    have : (List.range chain.length).map (fun i => i + 0) = List.range chain.length := by
      simp
    rw [this]
    simp [optDepthList]
  have hfr' : optFrameList c = chain.map (frameKey env upid) := by
    rw [hfr]
    simp [optFrameList, List.map_reverse]
  obtain ⟨m, hm⟩ : ∃ m, chain.length = m + 1 := by
    rcases chain with _ | ⟨a, l⟩
    · exact absurd rfl hne
    · exact ⟨l.length, rfl⟩
  obtain ⟨cs, rfl⟩ : ∃ cs, c = some cs := by
    rcases c with _ | cs
    · exfalso
      have : optDepthList (none : Option Callsite) = [] := rfl
      rw [this] at hdep'
      rw [hm, List.range_succ] at hdep'
      simp at hdep'
    · exact ⟨cs, rfl⟩
  have hdlist : cs.depthList = (List.range chain.length).reverse := hdep'
  refine ⟨cs, st', ?_, ?_, hdlist, hfr', by rw [hlen, hchainlen]⟩
  · unfold internCallchain
    rw [if_neg hne]
    exact hrec
  · obtain ⟨rest, hhead⟩ := Callsite.depthList_head cs
    rw [hhead, hm, List.range_succ] at hdlist
    simp at hdlist
    rw [hm]
    simp
    exact hdlist.1

/-- C6 (corrected): for every sample with a non-empty N-frame callchain all
of whose frames carry a known (non-`MODE_UNKNOWN`) cpu mode,
`InternCallchain` iterates the frames in reverse of the supplied vector,
interns exactly N callsites with depths 0 through N-1, and returns a
callsite of depth N-1 whose parent chain (frames `chain[0], …, chain[N-1]`
from top to root) terminates at `None`; and for a sample with an `ip` but
an empty callchain, the single-frame callchain `{cpu_mode, ip}` is
synthesized before interning.  (A frame with `MODE_UNKNOWN` instead aborts
via `PERFETTO_FATAL`, so the claim's unconditional form is false.) -/
theorem c6_callchain_bottom_up (env : ParserEnv) (st : ParserState) (upid : Nat)
    (chain : List Frame) (hne : chain ≠ [])
    (hknown : ∀ f ∈ chain, f.cpuMode ≠ CpuMode.unknown) :
    (∃ cs st', internCallchain env st upid chain = some (some cs, st') ∧
      cs.depth = chain.length - 1 ∧
      cs.depthList = (List.range chain.length).reverse ∧
      cs.frameList = chain.map (frameKey env upid) ∧
      st'.interned.length = st.interned.length + chain.length) ∧
    (∀ (s : Sample) (v : Nat), s.callchain = [] → s.ip = some v →
      sampleChainForIntern s = [⟨s.cpuMode, v⟩]) := by
  refine ⟨internCallchain_nonempty_spec env st upid chain hne hknown, ?_⟩
  intro s v hcc hip
  unfold sampleChainForIntern
  rw [if_pos ⟨hcc, by rw [hip]; rfl⟩, hip]
  rfl

/-- Concrete collaborator oracles for witnesses: user-space addresses at or
above 1000 resolve to `mapA`, kernel lookups always miss. -/
def mapA : Mapping := ⟨1, fun a => a - 1000⟩

def env0 : ParserEnv :=
  { updateThread := fun tid pid => tid + pid
    upidOf := fun utid => utid
    findKernelMappingForAddress := fun _ => none
    findUserMappingForAddress := fun _ ip => if 1000 ≤ ip then some mapA else none
    dummyMapping := ⟨0, fun _ => 0⟩
    findAttrForEventId := fun _ => none }

def st0 : ParserState := ⟨⟨0, 0, 0⟩, [], [], []⟩

theorem c6_callchain_bottom_up_witness :
    (∃ cs st', internCallchain env0 st0 3 [⟨CpuMode.kernel, 16⟩, ⟨CpuMode.user, 1500⟩] =
        some (some cs, st') ∧
      cs.depth = 1 ∧
      cs.depthList = [1, 0] ∧
      cs.frameList = [⟨CpuMode.kernel, 16⟩, ⟨CpuMode.user, 1500⟩].map (frameKey env0 3) ∧
      st'.interned.length = st0.interned.length + 2) ∧
    (∀ (s : Sample) (v : Nat), s.callchain = [] → s.ip = some v →
      sampleChainForIntern s = [⟨s.cpuMode, v⟩]) := by
  have h := c6_callchain_bottom_up env0 st0 3 [⟨CpuMode.kernel, 16⟩, ⟨CpuMode.user, 1500⟩]
    (by decide) (by decide)
  exact ⟨by simpa [List.range_succ] using h.1, h.2⟩

/-- C6 counterexample: a one-frame callchain whose frame has
`MODE_UNKNOWN` makes `InternCallchain` hit `PERFETTO_FATAL` (modelled as
`none`): no callsite is interned and nothing is returned, contrary to the
claim's promise of one interned callsite of depth 0 for every non-empty
one-frame chain. -/
theorem c6_counterexample :
    internCallchain env0 st0 4 [⟨CpuMode.unknown, 9⟩] = none := by
  decide

/-- C2 (corrected): within `InternCallchain`, a frame whose cpu mode is
kernel or guest_kernel resolves through the kernel lookup, a frame whose
cpu mode is user, hypervisor or guest_user resolves through the user
lookup with the sample thread's upid, and in either case a missed lookup
falls back to the dummy mapping and bumps `perf_dummy_mapping_used` once
per such frame; but a frame with `MODE_UNKNOWN` cpu mode aborts via
`PERFETTO_FATAL` — no lookup at all — so the claim's "otherwise the user
lookup" is false for that mode. -/
theorem c2_kernel_user_routing (env : ParserEnv) (upid : Nat) :
    (∀ f : Frame, f.cpuMode = CpuMode.kernel ∨ f.cpuMode = CpuMode.guestKernel →
      (∀ m, env.findKernelMappingForAddress f.ip = some m →
        frameMapping env upid f = some (m, false)) ∧
      (env.findKernelMappingForAddress f.ip = none →
        frameMapping env upid f = some (env.dummyMapping, true))) ∧
    (∀ f : Frame,
      f.cpuMode = CpuMode.user ∨ f.cpuMode = CpuMode.hypervisor ∨
        f.cpuMode = CpuMode.guestUser →
      (∀ m, env.findUserMappingForAddress upid f.ip = some m →
        frameMapping env upid f = some (m, false)) ∧
      (env.findUserMappingForAddress upid f.ip = none →
        frameMapping env upid f = some (env.dummyMapping, true))) ∧
    (∀ f : Frame, f.cpuMode = CpuMode.unknown → frameMapping env upid f = none) ∧
    (∀ (chain : List Frame) (st : ParserState),
      (∀ f ∈ chain, f.cpuMode ≠ CpuMode.unknown) →
      ∃ c st', internCallchain env st upid chain = some (c, st') ∧
        st'.stats.perfDummyMappingUsed =
          st.stats.perfDummyMappingUsed +
            chain.countP (fun f => usesDummy env upid f)) := by
  refine ⟨?_, ?_, ?_, ?_⟩
  · intro f hf
    constructor
    · intro m hm
      unfold frameMapping
      rcases hf with hf | hf <;> rw [hf] <;> simp only [IsInKernel] <;> rw [hm]
    · intro hm
      unfold frameMapping
      rcases hf with hf | hf <;> rw [hf] <;> simp only [IsInKernel] <;> rw [hm]
  · intro f hf
    constructor
    · intro m hm
      unfold frameMapping
      rcases hf with hf | hf | hf <;> rw [hf] <;> simp only [IsInKernel] <;> rw [hm]
    · intro hm
      unfold frameMapping
      rcases hf with hf | hf | hf <;> rw [hf] <;> simp only [IsInKernel] <;> rw [hm]
  · intro f hf
    unfold frameMapping
    rw [hf]
    rfl
  · intro chain st hknown
    obtain ⟨c, st', hrec, _, _, _, _, hdum⟩ :=
      internCallchain_success env st upid chain hknown
    exact ⟨c, st', hrec, hdum⟩

/-- An oracle environment whose user and kernel lookups always succeed. -/
def mapU : Mapping := ⟨7, fun a => a⟩

def envU : ParserEnv :=
  { updateThread := fun tid pid => tid + pid
    upidOf := fun utid => utid
    findKernelMappingForAddress := fun _ => some mapU
    findUserMappingForAddress := fun _ _ => some mapU
    dummyMapping := ⟨0, fun _ => 0⟩
    findAttrForEventId := fun _ => none }

theorem c2_kernel_user_routing_witness :
    frameMapping envU 7 ⟨CpuMode.kernel, 16⟩ = some (mapU, false) ∧
    frameMapping envU 7 ⟨CpuMode.user, 32⟩ = some (mapU, false) ∧
    frameMapping env0 7 ⟨CpuMode.user, 5⟩ = some (env0.dummyMapping, true) ∧
    frameMapping env0 7 ⟨CpuMode.kernel, 5⟩ = some (env0.dummyMapping, true) ∧
    frameMapping env0 7 ⟨CpuMode.unknown, 5⟩ = none ∧
    (∃ c st', internCallchain env0 st0 7 [⟨CpuMode.user, 5⟩] = some (c, st') ∧
      st'.stats.perfDummyMappingUsed =
        st0.stats.perfDummyMappingUsed +
          List.countP (fun f => usesDummy env0 7 f) [⟨CpuMode.user, 5⟩]) := by
  refine ⟨((c2_kernel_user_routing envU 7).1 ⟨CpuMode.kernel, 16⟩ (Or.inl rfl)).1 mapU rfl,
    ((c2_kernel_user_routing envU 7).2.1 ⟨CpuMode.user, 32⟩ (Or.inl rfl)).1 mapU rfl,
    ((c2_kernel_user_routing env0 7).2.1 ⟨CpuMode.user, 5⟩ (Or.inl rfl)).2 rfl,
    ((c2_kernel_user_routing env0 7).1 ⟨CpuMode.kernel, 5⟩ (Or.inl rfl)).2 rfl,
    (c2_kernel_user_routing env0 7).2.2.1 ⟨CpuMode.unknown, 5⟩ rfl,
    (c2_kernel_user_routing env0 7).2.2.2 [⟨CpuMode.user, 5⟩] st0 (by decide)⟩

/-- C2 counterexample: with a user lookup that would succeed at address 5
for upid 3, a frame with `MODE_UNKNOWN` cpu mode nevertheless makes
`InternCallchain` abort (`PERFETTO_FATAL`, modelled `none`) instead of
using the user lookup as the claim's "otherwise" case requires. -/
theorem c2_counterexample :
    envU.findUserMappingForAddress 3 5 = some mapU ∧
    internCallchain envU st0 3 [⟨CpuMode.unknown, 5⟩] = none :=
  ⟨rfl, rfl⟩

theorem internSample_gate_err (env : ParserEnv) (st : ParserState) (s : Sample)
    (h : s.time = none ∨ s.pidTid = none ∨ s.cpu = none) :
    ∃ msg, internSample env st s = some (.err msg, st) := by
  unfold internSample
  by_cases h1 : s.time = none
  · exact ⟨_, by rw [if_pos h1]⟩
  · rw [if_neg h1]
    by_cases h2 : s.pidTid = none
    · exact ⟨_, by rw [if_pos h2]⟩
    · rw [if_neg h2]
      have h3 : s.cpu = none := by tauto
      exact ⟨_, by rw [if_pos h3]⟩

/-- C4: for every decoded SAMPLE record missing any of time, pid/tid or
cpu, `InternSample` returns an error before inserting anything (the state,
and in particular the `perf_sample` table, is unchanged at the point of the
error), and `ParsePerfRecord` then increments `perf_samples_skipped` while
still no row is inserted. -/
theorem c4_sample_insertion_gate (env : ParserEnv) (st : ParserState) (s : Sample)
    (h : s.time = none ∨ s.pidTid = none ∨ s.cpu = none) :
    (∃ msg, internSample env st s = some (.err msg, st)) ∧
    (∃ msg, parseSampleDecoded env st s = some (.err msg, st)) ∧
    parsePerfRecordOnSample env st s = some st.bumpSamplesSkipped ∧
    st.bumpSamplesSkipped.rows = st.rows ∧
    st.bumpSamplesSkipped.stats.perfSamplesSkipped = st.stats.perfSamplesSkipped + 1 := by
  have hs' : ∃ msg, parseSampleDecoded env st s = some (.err msg, st) := by
    unfold parseSampleDecoded
    by_cases hp : s.period = none
    · rw [if_pos hp]
      exact internSample_gate_err env st _ (by rcases h with h | h | h <;> simp [h])
    · rw [if_neg hp]
      exact internSample_gate_err env st s h
  obtain ⟨msg, hmsg⟩ := hs'
  refine ⟨internSample_gate_err env st s h, ⟨msg, hmsg⟩, ?_, rfl, rfl⟩
  unfold parsePerfRecordOnSample
  rw [hmsg]

/-- A concrete sample missing its cpu. -/
def sampleNoCpu : Sample :=
  { time := some 10, pidTid := some ⟨1, 2⟩, cpu := none, ip := none,
    cpuMode := .user, callchain := [], period := some 3, readGroups := [],
    traceTs := 10, attr := ⟨5, none⟩, perfSessionId := 0 }

theorem c4_sample_insertion_gate_witness :
    (∃ msg, internSample env0 st0 sampleNoCpu = some (.err msg, st0)) ∧
    (∃ msg, parseSampleDecoded env0 st0 sampleNoCpu = some (.err msg, st0)) ∧
    parsePerfRecordOnSample env0 st0 sampleNoCpu = some st0.bumpSamplesSkipped ∧
    st0.bumpSamplesSkipped.rows = st0.rows ∧
    st0.bumpSamplesSkipped.stats.perfSamplesSkipped =
      st0.stats.perfSamplesSkipped + 1 :=
  c4_sample_insertion_gate env0 st0 sampleNoCpu (Or.inr (Or.inr rfl))

/-- C10: a sample that passes the time/tid/cpu gate, has no read groups and
no period from either the sample or its attr first gets its `perf_sample`
row inserted and only then fails in `UpdateCounters`; `ParsePerfRecord`
increments `perf_samples_skipped`, yet the inserted row remains — the skip
is not atomic with respect to table insertion. -/
theorem c10_skip_not_atomic (env : ParserEnv) (st : ParserState) (s : Sample)
    (ht : ¬ s.time = none) (hpt : ¬ s.pidTid = none) (hc : ¬ s.cpu = none)
    (hrg : s.readGroups = []) (hp : s.period = none) (hap : s.attr.samplePeriod = none)
    (hchain : ∀ f ∈ sampleChainForIntern s, f.cpuMode ≠ CpuMode.unknown) :
    ∃ (cid : Option Callsite) (st1 : ParserState),
      parseSampleDecoded env st s =
        some (.err "No period for sample",
          { st1 with rows := st1.rows ++ [rowOf env s cid] }) ∧
      st1.rows = st.rows ∧
      parsePerfRecordOnSample env st s =
        some ({ st1 with
          rows := st1.rows ++ [rowOf env s cid] } : ParserState).bumpSamplesSkipped ∧
      (({ st1 with
          rows := st1.rows ++ [rowOf env s cid] } : ParserState).bumpSamplesSkipped).rows =
        st.rows ++ [rowOf env s cid] ∧
      (({ st1 with
          rows := st1.rows ++ [rowOf env s cid] } : ParserState).bumpSamplesSkipped).stats.perfSamplesSkipped =
        st.stats.perfSamplesSkipped + 1 := by
  obtain ⟨cid, st1, hic, hrows1, _, hss1, _, _⟩ :=
    internCallchain_success env st (sampleUpid env s) (sampleChainForIntern s) hchain
  have hupd : updateCounters env
      ({ st1 with rows := st1.rows ++ [rowOf env s cid] }) s =
      (.err "No period for sample",
        { st1 with rows := st1.rows ++ [rowOf env s cid] }) := by
    unfold updateCounters
    rw [if_neg (by simp [hrg]), if_pos ⟨hp, hap⟩]
  have hs' : ({ s with period := s.attr.samplePeriod } : Sample) = s := by
    rw [hap, ← hp]
  have hparse : parseSampleDecoded env st s =
      some (.err "No period for sample",
        { st1 with rows := st1.rows ++ [rowOf env s cid] }) := by
    unfold parseSampleDecoded
    rw [if_pos hp, hs']
    unfold internSample
    rw [if_neg ht, if_neg hpt, if_neg hc]
    simp only [hic]
    rw [hupd]
  refine ⟨cid, st1, hparse, hrows1, ?_,
    by simp [ParserState.bumpSamplesSkipped, hrows1],
    by simp [ParserState.bumpSamplesSkipped, hss1]⟩
  unfold parsePerfRecordOnSample
  rw [hparse]

/-- A concrete sample with time/tid/cpu present but no period anywhere. -/
def sampleNoPeriod : Sample :=
  { time := some 10, pidTid := some ⟨1, 2⟩, cpu := some 0, ip := none,
    cpuMode := .user, callchain := [], period := none, readGroups := [],
    traceTs := 10, attr := ⟨5, none⟩, perfSessionId := 0 }

theorem c10_skip_not_atomic_witness :
    ∃ (cid : Option Callsite) (st1 : ParserState),
      parseSampleDecoded env0 st0 sampleNoPeriod =
        some (.err "No period for sample",
          { st1 with rows := st1.rows ++ [rowOf env0 sampleNoPeriod cid] }) ∧
      st1.rows = st0.rows ∧
      parsePerfRecordOnSample env0 st0 sampleNoPeriod =
        some ({ st1 with
          rows := st1.rows ++ [rowOf env0 sampleNoPeriod cid] } : ParserState).bumpSamplesSkipped ∧
      (({ st1 with
          rows := st1.rows ++ [rowOf env0 sampleNoPeriod cid] } : ParserState).bumpSamplesSkipped).rows =
        st0.rows ++ [rowOf env0 sampleNoPeriod cid] ∧
      (({ st1 with
          rows := st1.rows ++ [rowOf env0 sampleNoPeriod cid] } : ParserState).bumpSamplesSkipped).stats.perfSamplesSkipped =
        st0.stats.perfSamplesSkipped + 1 :=
  c10_skip_not_atomic env0 st0 sampleNoPeriod (by decide) (by decide) (by decide)
    rfl rfl rfl (by decide)
